import Mathlib

/-!
Shallow embedding of the Quran reading app (`src/app/(tabs)/index.tsx`).

The file embeds the provider logic of the enhanced variant of the screen
(the one defining `fetchNextSurah` / `fetchPreviousSurah`): the React state
hooks become fields of an explicit `AppState` record, each `async` handler
becomes a state-transformer, and the outcomes of the two remote fetches are
passed in explicitly as a `FetchOutcome` value, matching the shape of the
code (`json.code === 200` test, `catch`, `finally`).  Calls into the audio
subsystem (`stopAsync`, `unloadAsync`, `Audio.Sound.createAsync`) are
recorded in an event trace so that resource-discipline properties are
observable.
-/

namespace QuranApp

/-- Record for one chapter entry of the remote chapter index
(interface `Surah` in the source). -/
structure Surah where
  number : Nat
  name : String
  englishName : String
  englishNameTranslation : String
  numberOfAyahs : Nat
  revelationType : String
deriving DecidableEq

/-- Record for one verse (interface `Ayah` in the source): `number` is the
global cross-chapter verse number, `numberInSurah` the ordinal within the
chapter. -/
structure Ayah where
  number : Nat
  text : String
  numberInSurah : Nat
deriving DecidableEq

/-- Record for a loaded chapter (interface `SurahData` in the source). -/
structure SurahData where
  number : Nat
  name : String
  englishName : String
  englishNameTranslation : String
  numberOfAyahs : Nat
  revelationType : String
  ayahs : List Ayah
deriving DecidableEq

/-- A live audio object created by `Audio.Sound.createAsync`: its identity
and the URI it was created for. -/
structure SoundHandle where
  id : Nat
  uri : String
deriving DecidableEq

/-- Observable calls into the audio subsystem, recorded in creation order:
`stop h` is `stopAsync`, `unload h` is `unloadAsync`, `create h` is
`Audio.Sound.createAsync` returning handle `h`. -/
inductive AudioEvent where
  | stop (id : Nat)
  | unload (id : Nat)
  | create (id : Nat)
deriving DecidableEq

/-- Outcome of one `fetch` + `response.json()` round trip: `ok code data`
models a parsed response carrying status `json.code`, `error` models the
fetch rejecting or the body failing to parse (the `catch` branch). -/
inductive FetchOutcome (α : Type) where
  | ok (code : Nat) (data : α)
  | error
deriving DecidableEq

/-- The provider's state: one field per `useState` hook, plus three
observation-only traces (`nextHandleId` for fresh handle ids, `events` for
audio-subsystem calls, `requests` for issued fetch URLs, `errorLog` for
`console.error` messages). -/
structure AppState where
  showSurahs : Bool
  surahs : List Surah
  selectedSurah : Option SurahData
  loading : Bool
  selectedAyah : Option Ayah
  sound : Option SoundHandle
  nextHandleId : Nat
  events : List AudioEvent
  requests : List String
  errorLog : List String
deriving DecidableEq

/-- URL of the chapter-index endpoint. -/
def surahListUrl : String := "https://api.alquran.cloud/v1/surah"

/-- URL of the chapter-detail endpoint for chapter `n` (fixed reciter). -/
def ayahsUrl (n : Nat) : String :=
  "https://api.alquran.cloud/v1/surah/" ++ toString n ++ "/ar.alafasy"

/-- URL of the audio resource for global verse number `n` (fixed reciter),
as built in `playAudio`. -/
def audioUrl (n : Nat) : String :=
  "https://cdn.islamic.network/quran/audio/128/ar.alafasy/" ++ toString n ++ ".mp3"

/-- The initial hook values: `useState(false)`, `useState([])`,
`useState(null)`, `useState(false)`, `useState(null)`, `useState(null)`. -/
def initialState : AppState :=
  { showSurahs := false
    surahs := []
    selectedSurah := none
    loading := false
    selectedAyah := none
    sound := none
    nextHandleId := 0
    events := []
    requests := []
    errorLog := [] }

/-- `setLoading(true)`, the first statement of both fetch operations. -/
def setLoadingTrue (s : AppState) : AppState := { s with loading := true }

/-- Body of `fetchSurahs` after `setLoading(true)` and the fetch itself:
the `json.code === 200` test, the `catch` branch, and the `finally`
clause `setLoading(false)`. -/
def fetchSurahsRest (r : FetchOutcome (List Surah)) (s1 : AppState) : AppState :=
  let s2 :=
    match r with
    | FetchOutcome.ok code data =>
        if code == 200 then { s1 with surahs := data }
        else { s1 with errorLog := s1.errorLog ++ ["Failed to fetch surahs:"] }
    | FetchOutcome.error =>
        { s1 with errorLog := s1.errorLog ++ ["Error fetching Surahs:"] }
  { s2 with loading := false }

/-- `fetchSurahs`: `setLoading(true)`, fetch the chapter index, then the
branching of `fetchSurahsRest`. -/
def fetchSurahs (r : FetchOutcome (List Surah)) (s : AppState) : AppState :=
  fetchSurahsRest r
    { setLoadingTrue s with requests := s.requests ++ [surahListUrl] }

/-- Body of `fetchAyahs` after `setLoading(true)` and the fetch itself:
on `json.code === 200` the fetched data replaces `selectedSurah`; both
failure branches log; `finally` sets `loading` back to `false`. -/
def fetchAyahsRest (r : FetchOutcome SurahData) (s1 : AppState) : AppState :=
  let s2 :=
    match r with
    | FetchOutcome.ok code data =>
        if code == 200 then { s1 with selectedSurah := some data }
        else { s1 with errorLog := s1.errorLog ++ ["Failed to fetch ayahs:"] }
    | FetchOutcome.error =>
        { s1 with errorLog := s1.errorLog ++ ["Error fetching Ayahs:"] }
  { s2 with loading := false }

/-- `fetchAyahs(surahNumber)`: `setLoading(true)`, fetch chapter `n`'s
detail URL, then the branching of `fetchAyahsRest`. -/
def fetchAyahs (n : Nat) (r : FetchOutcome SurahData) (s : AppState) : AppState :=
  fetchAyahsRest r
    { setLoadingTrue s with requests := s.requests ++ [ayahsUrl n] }

/-- The audio calls emitted when an existing handle is replaced or
discarded: `stopAsync` then `unloadAsync` on that handle, nothing when no
handle exists. -/
def releaseEvents : Option SoundHandle → List AudioEvent
  | some h => [AudioEvent.stop h.id, AudioEvent.unload h.id]
  | none => []

/-- The `if (sound) { await sound.stopAsync(); await sound.unloadAsync(); }`
prelude of `playAudio`: emits the release calls, leaves the rest of the
state alone. -/
def releaseSound (s : AppState) : AppState :=
  { s with events := s.events ++ releaseEvents s.sound }

/-- `playAudio(ayah)` (success path of `Audio.Sound.createAsync`): release
any existing handle, create a new handle for the verse's audio URL (built
from `ayah.number`, the global verse number) with `shouldPlay: true`, then
`setSound(newSound)` and `setSelectedAyah(ayah)`. -/
def playAudio (ayah : Ayah) (s : AppState) : AppState :=
  let s1 := releaseSound s
  { s1 with
    events := s1.events ++ [AudioEvent.create s1.nextHandleId]
    nextHandleId := s1.nextHandleId + 1
    sound := some { id := s1.nextHandleId, uri := audioUrl ayah.number }
    selectedAyah := some ayah }

/-- JavaScript `Array.prototype.findIndex` restricted to verse lists,
as an `Option Nat`: index of the first element satisfying `p`. -/
def findIdxOpt (p : Ayah → Bool) : List Ayah → Option Nat
  | [] => none
  | a :: rest =>
      if p a then some 0 else (findIdxOpt p rest).map (fun i => i + 1)

/-- JavaScript `Array.prototype.findIndex`: the index of the first match,
`-1` when no element matches. -/
def findIndexJS (p : Ayah → Bool) (l : List Ayah) : Int :=
  match findIdxOpt p l with
  | some i => (i : Int)
  | none => -1

/-- JavaScript array indexing `l[i]`: `undefined` (here `none`) for a
negative or out-of-range index. -/
def getJS (l : List Ayah) (i : Int) : Option Ayah :=
  if 0 ≤ i then l.get? i.toNat else none

/-- The `setOnPlaybackStatusUpdate` callback registered by
`playAudio(ayah)`, at the moment it fires with `didJustFinish`: if a
chapter is selected, look up `ayah.number` in its verse list with
`findIndex`, read the element one past that index, and if it exists play
it; otherwise do nothing. -/
def onPlaybackFinished (ayah : Ayah) (s : AppState) : AppState :=
  match s.selectedSurah with
  | some surah =>
      let currentIndex := findIndexJS (fun a => a.number == ayah.number) surah.ayahs
      match getJS surah.ayahs (currentIndex + 1) with
      | some nextAyah => playAudio nextAyah s
      | none => s
  | none => s

/-- `handleBackPress`: if a handle exists, stop it, unload it and
`setSound(null)`; then `setSelectedAyah(null)` and
`setSelectedSurah(null)`. -/
def handleBackPress (s : AppState) : AppState :=
  let s1 :=
    match s.sound with
    | some h =>
        { s with
          events := s.events ++ [AudioEvent.stop h.id, AudioEvent.unload h.id]
          sound := none }
    | none => s
  { s1 with selectedAyah := none, selectedSurah := none }

/-- `fetchNextSurah`: when `selectedSurah?.number` is truthy (a chapter is
loaded and its number is nonzero), fetch chapter `1` after chapter `114`,
otherwise chapter `number + 1`. -/
def fetchNextSurah (r : FetchOutcome SurahData) (s : AppState) : AppState :=
  match s.selectedSurah with
  | some ss =>
      if ss.number ≠ 0 then
        fetchAyahs (if ss.number == 114 then 1 else ss.number + 1) r s
      else s
  | none => s

/-- `fetchPreviousSurah`: when `selectedSurah?.number` is truthy and the
number exceeds `1`, fetch chapter `number - 1`; otherwise do nothing. -/
def fetchPreviousSurah (r : FetchOutcome SurahData) (s : AppState) : AppState :=
  match s.selectedSurah with
  | some ss =>
      if ss.number ≠ 0 ∧ ss.number > 1 then fetchAyahs (ss.number - 1) r s
      else s
  | none => s

/-- Claim C2: next-chapter navigation wraps.  For a loaded chapter with
ordinal `n` in `[1,114]`, `fetchNextSurah` delegates to `fetchAyahs` on
chapter `(n % 114) + 1`: it issues the detail request for that chapter and,
when the fetch succeeds with status 200, installs the returned chapter as
the loaded one.  In particular from `n = 114` it requests chapter 1. -/
theorem next_chapter_wraps (s : AppState) (ss : SurahData)
    (r : FetchOutcome SurahData)
    (hsel : s.selectedSurah = some ss)
    (h1 : 1 ≤ ss.number) (h2 : ss.number ≤ 114) :
    fetchNextSurah r s = fetchAyahs (ss.number % 114 + 1) r s ∧
    (fetchNextSurah r s).requests = s.requests ++ [ayahsUrl (ss.number % 114 + 1)] ∧
    (∀ d : SurahData, r = FetchOutcome.ok 200 d →
      (fetchNextSurah r s).selectedSurah = some d) := by
  have harg : (if ss.number == 114 then 1 else ss.number + 1) = ss.number % 114 + 1 := by
    rcases Nat.lt_or_ge ss.number 114 with hlt | hge
    · have : ss.number ≠ 114 := Nat.ne_of_lt hlt
      simp [this, Nat.mod_eq_of_lt hlt]
    · have heq : ss.number = 114 := Nat.le_antisymm h2 hge
      simp [heq]
  have hmain : fetchNextSurah r s = fetchAyahs (ss.number % 114 + 1) r s := by
    unfold fetchNextSurah
    rw [hsel]
    simp only [harg]
    have hne : ss.number ≠ 0 := by omega
    simp [hne]
  refine ⟨hmain, ?_, ?_⟩
  · rw [hmain]
    cases r with
    | ok code data =>
        by_cases hc : code == 200 <;>
          simp [fetchAyahs, fetchAyahsRest, setLoadingTrue, hc]
    | error => simp [fetchAyahs, fetchAyahsRest, setLoadingTrue]
  · intro d hd
    subst hd
    rw [hmain]
    simp [fetchAyahs, fetchAyahsRest, setLoadingTrue]

/-- Chapter 114 loaded, used to exercise the wraparound case. -/
def demoChapter114 : SurahData :=
  { number := 114
    name := "An-Nas"
    englishName := "Mankind"
    englishNameTranslation := "Mankind"
    numberOfAyahs := 6
    revelationType := "Meccan"
    ayahs := [] }

/-- Chapter 1 as returned by the API, used as a fetched payload. -/
def demoChapter1 : SurahData :=
  { number := 1
    name := "Al-Fatihah"
    englishName := "The Opening"
    englishNameTranslation := "The Opening"
    numberOfAyahs := 7
    revelationType := "Meccan"
    ayahs := [] }

/-- A state with chapter 114 loaded. -/
def stateAt114 : AppState := { initialState with selectedSurah := some demoChapter114 }

/-- Witness for C2: from chapter 114, `fetchNextSurah` requests chapter 1
and a successful fetch loads the returned chapter-1 data. -/
theorem next_chapter_wraps_witness :
    fetchNextSurah (FetchOutcome.ok 200 demoChapter1) stateAt114
      = fetchAyahs (114 % 114 + 1) (FetchOutcome.ok 200 demoChapter1) stateAt114 ∧
    (fetchNextSurah (FetchOutcome.ok 200 demoChapter1) stateAt114).requests
      = stateAt114.requests ++ [ayahsUrl (114 % 114 + 1)] ∧
    (fetchNextSurah (FetchOutcome.ok 200 demoChapter1) stateAt114).selectedSurah
      = some demoChapter1 := by
  have h := next_chapter_wraps stateAt114 demoChapter114
    (FetchOutcome.ok 200 demoChapter1) rfl (by decide) (by decide)
  exact ⟨h.1, h.2.1, h.2.2 demoChapter1 rfl⟩

/-- Claim C3: previous-chapter navigation clamps.  For a loaded chapter
with ordinal `n` in `[2,114]`, `fetchPreviousSurah` delegates to
`fetchAyahs` on chapter `n - 1` (issuing that request, and installing the
returned chapter on a 200 response); for `n = 1` it is a no-op: the state,
in particular the loaded chapter, is unchanged. -/
theorem previous_chapter_clamps (s : AppState) (ss : SurahData)
    (r : FetchOutcome SurahData)
    (hsel : s.selectedSurah = some ss) :
    (2 ≤ ss.number → ss.number ≤ 114 →
      fetchPreviousSurah r s = fetchAyahs (ss.number - 1) r s ∧
      (fetchPreviousSurah r s).requests = s.requests ++ [ayahsUrl (ss.number - 1)] ∧
      (∀ d : SurahData, r = FetchOutcome.ok 200 d →
        (fetchPreviousSurah r s).selectedSurah = some d)) ∧
    (ss.number = 1 → fetchPreviousSurah r s = s ∧
      (fetchPreviousSurah r s).selectedSurah = some ss) := by
  constructor
  · intro hge _
    have hcond : ss.number ≠ 0 ∧ ss.number > 1 := by omega
    have hmain : fetchPreviousSurah r s = fetchAyahs (ss.number - 1) r s := by
      unfold fetchPreviousSurah
      rw [hsel]
      simp [hcond]
    refine ⟨hmain, ?_, ?_⟩
    · rw [hmain]
      cases r with
      | ok code data =>
          by_cases hc : code == 200 <;>
            simp [fetchAyahs, fetchAyahsRest, setLoadingTrue, hc]
      | error => simp [fetchAyahs, fetchAyahsRest, setLoadingTrue]
    · intro d hd
      subst hd
      rw [hmain]
      simp [fetchAyahs, fetchAyahsRest, setLoadingTrue]
  · intro h1
    have hmain : fetchPreviousSurah r s = s := by
      unfold fetchPreviousSurah
      rw [hsel]
      simp [h1]
    exact ⟨hmain, by rw [hmain, hsel]⟩

/-- Chapter 2 loaded, used to exercise the decrement case. -/
def demoChapter2 : SurahData :=
  { number := 2
    name := "Al-Baqarah"
    englishName := "The Cow"
    englishNameTranslation := "The Cow"
    numberOfAyahs := 286
    revelationType := "Medinan"
    ayahs := [] }

/-- A state with chapter 2 loaded. -/
def stateAt2 : AppState := { initialState with selectedSurah := some demoChapter2 }

/-- A state with chapter 1 loaded. -/
def stateAt1 : AppState := { initialState with selectedSurah := some demoChapter1 }

/-- Witness for C3: from chapter 2, `fetchPreviousSurah` requests chapter
1; from chapter 1 it changes nothing. -/
theorem previous_chapter_clamps_witness :
    fetchPreviousSurah (FetchOutcome.ok 200 demoChapter1) stateAt2
      = fetchAyahs 1 (FetchOutcome.ok 200 demoChapter1) stateAt2 ∧
    fetchPreviousSurah (FetchOutcome.ok 200 demoChapter1) stateAt1 = stateAt1 ∧
    (fetchPreviousSurah (FetchOutcome.ok 200 demoChapter1) stateAt1).selectedSurah
      = some demoChapter1 := by
  have h2 := previous_chapter_clamps stateAt2 demoChapter2
    (FetchOutcome.ok 200 demoChapter1) rfl
  have h1 := previous_chapter_clamps stateAt1 demoChapter1
    (FetchOutcome.ok 200 demoChapter1) rfl
  exact ⟨(h2.1 (by decide) (by decide)).1, (h1.2 rfl).1, (h1.2 rfl).2⟩

/-- A verse of chapter 1 used as a mid-playback cursor. -/
def cursorAyah : Ayah := { number := 3, text := "third", numberInSurah := 3 }

/-- A handle that is live while `cursorAyah` plays. -/
def cursorHandle : SoundHandle := { id := 7, uri := audioUrl 3 }

/-- A state in which chapter 1 is loaded, `cursorAyah` is the cursor and
`cursorHandle` is the live handle. -/
def midPlaybackState : AppState :=
  { initialState with
    selectedSurah := some demoChapter1
    selectedAyah := some cursorAyah
    sound := some cursorHandle
    nextHandleId := 8
    events := [AudioEvent.create 7] }

/-- Counterexample to claim C5: a successful `fetchAyahs(2)` from a
mid-playback state replaces the loaded chapter but does NOT clear the
Playback Cursor and does NOT release the Playback Handle — `selectedAyah`
and `sound` keep their old values and no stop/unload call is emitted. -/
theorem select_chapter_clears_counterexample :
    (fetchAyahs 2 (FetchOutcome.ok 200 demoChapter2) midPlaybackState).selectedSurah
      = some demoChapter2 ∧
    (fetchAyahs 2 (FetchOutcome.ok 200 demoChapter2) midPlaybackState).selectedAyah
      = some cursorAyah ∧
    ¬ (fetchAyahs 2 (FetchOutcome.ok 200 demoChapter2) midPlaybackState).selectedAyah
      = none ∧
    (fetchAyahs 2 (FetchOutcome.ok 200 demoChapter2) midPlaybackState).sound
      = some cursorHandle ∧
    (fetchAyahs 2 (FetchOutcome.ok 200 demoChapter2) midPlaybackState).events
      = [AudioEvent.create 7] := by
  refine ⟨rfl, rfl, ?_, rfl, rfl⟩
  intro h
  simp [fetchAyahs, fetchAyahsRest, setLoadingTrue, midPlaybackState] at h

/-- Claim C5 amended: `fetchAyahs(n)` leaves the Playback Cursor, the
Playback Handle and the audio event trace untouched on every outcome; on a
successful (status-200) fetch it replaces the Loaded Chapter with the
fetched data.  No clearing of the cursor and no release of the handle is
performed. -/
theorem select_chapter_leaves_playback_untouched (n : Nat) (d : SurahData)
    (r : FetchOutcome SurahData) (s : AppState) :
    (fetchAyahs n r s).selectedAyah = s.selectedAyah ∧
    (fetchAyahs n r s).sound = s.sound ∧
    (fetchAyahs n r s).events = s.events ∧
    (fetchAyahs n r s).nextHandleId = s.nextHandleId ∧
    (fetchAyahs n (FetchOutcome.ok 200 d) s).selectedSurah = some d := by
  refine ⟨?_, ?_, ?_, ?_, ?_⟩ <;>
  · cases r with
    | ok code data =>
        by_cases hc : code == 200 <;>
          simp [fetchAyahs, fetchAyahsRest, setLoadingTrue, hc]
    | error => simp [fetchAyahs, fetchAyahsRest, setLoadingTrue]

/-- Claim C6: `handleBackPress` moves Reading to Idle: afterwards the
loaded chapter, the cursor and the handle slot are all empty, and the
audio calls emitted are exactly a stop followed by an unload of the
previously held handle (nothing when no handle existed). -/
theorem exit_clears_state (s : AppState) :
    (handleBackPress s).selectedSurah = none ∧
    (handleBackPress s).selectedAyah = none ∧
    (handleBackPress s).sound = none ∧
    (handleBackPress s).events = s.events ++ releaseEvents s.sound := by
  cases hs : s.sound with
  | some h => simp [handleBackPress, releaseEvents, hs]
  | none => simp [handleBackPress, releaseEvents, hs]

/-- Claim C7: fetch-failure atomicity.  For a non-200 response and for a
rejected/unparseable fetch, both `fetchSurahs` and `fetchAyahs` end in the
state they started from — the chapter list, loaded chapter, cursor, handle
and audio trace all unchanged — except that the busy flag is reset, the
attempted request is on the request trace, and one error message has been
logged.  Both operations are total functions into `AppState`, so no error
propagates to the caller. -/
theorem fetch_failure_atomicity (s : AppState) (code : Nat) (hcode : code ≠ 200)
    (ds : List Surah) (dd : SurahData) (n : Nat) :
    fetchSurahs (FetchOutcome.ok code ds) s =
      { s with
        loading := false
        requests := s.requests ++ [surahListUrl]
        errorLog := s.errorLog ++ ["Failed to fetch surahs:"] } ∧
    fetchSurahs FetchOutcome.error s =
      { s with
        loading := false
        requests := s.requests ++ [surahListUrl]
        errorLog := s.errorLog ++ ["Error fetching Surahs:"] } ∧
    fetchAyahs n (FetchOutcome.ok code dd) s =
      { s with
        loading := false
        requests := s.requests ++ [ayahsUrl n]
        errorLog := s.errorLog ++ ["Failed to fetch ayahs:"] } ∧
    fetchAyahs n FetchOutcome.error s =
      { s with
        loading := false
        requests := s.requests ++ [ayahsUrl n]
        errorLog := s.errorLog ++ ["Error fetching Ayahs:"] } := by
    have hc : (code == 200) = false := by
      simp [hcode]
    refine ⟨?_, ?_, ?_, ?_⟩ <;>
      simp [fetchSurahs, fetchSurahsRest, fetchAyahs, fetchAyahsRest,
        setLoadingTrue, hc]

/-- Witness for C7: a 404 response and a network error each leave the
previously held state intact, log, and reset the busy flag. -/
theorem fetch_failure_atomicity_witness :
    fetchSurahs (FetchOutcome.ok 404 []) stateAt1 =
      { stateAt1 with
        loading := false
        requests := stateAt1.requests ++ [surahListUrl]
        errorLog := stateAt1.errorLog ++ ["Failed to fetch surahs:"] } ∧
    fetchAyahs 5 FetchOutcome.error stateAt1 =
      { stateAt1 with
        loading := false
        requests := stateAt1.requests ++ [ayahsUrl 5]
        errorLog := stateAt1.errorLog ++ ["Error fetching Ayahs:"] } := by
  have h := fetch_failure_atomicity stateAt1 404 (by decide) [] demoChapter1 5
  exact ⟨h.1, h.2.2.2⟩

/-- Claim C8: loading-flag discipline.  Both fetch operations begin by
setting the shared `loading` flag (their first phase is `setLoadingTrue`,
whose result has `loading = true`) and end with `loading = false` on every
outcome — success, non-200 response, or error. -/
theorem loading_flag_discipline (s : AppState)
    (rs : FetchOutcome (List Surah)) (ra : FetchOutcome SurahData) (n : Nat) :
    (setLoadingTrue s).loading = true ∧
    fetchSurahs rs s =
      fetchSurahsRest rs { setLoadingTrue s with requests := s.requests ++ [surahListUrl] } ∧
    fetchAyahs n ra s =
      fetchAyahsRest ra { setLoadingTrue s with requests := s.requests ++ [ayahsUrl n] } ∧
    (fetchSurahs rs s).loading = false ∧
    (fetchAyahs n ra s).loading = false := by
  refine ⟨rfl, rfl, rfl, ?_, ?_⟩
  · cases rs with
    | ok code data =>
        by_cases hc : code == 200 <;>
          simp [fetchSurahs, fetchSurahsRest, setLoadingTrue, hc]
    | error => simp [fetchSurahs, fetchSurahsRest, setLoadingTrue]
  · cases ra with
    | ok code data =>
        by_cases hc : code == 200 <;>
          simp [fetchAyahs, fetchAyahsRest, setLoadingTrue, hc]
    | error => simp [fetchAyahs, fetchAyahsRest, setLoadingTrue]

/-- Claim C9: audio addressing.  `playAudio(v)` acquires a handle whose
URI is the audio URL built from `v.number` — the cross-chapter global
verse number — and sets the Playback Cursor to `v`.  The URI does not
depend on `v.numberInSurah`: changing the within-chapter number alone
leaves the acquired handle unchanged. -/
theorem audio_addressing_global_number (ayah : Ayah) (s : AppState) :
    (playAudio ayah s).sound
      = some { id := s.nextHandleId, uri := audioUrl ayah.number } ∧
    (playAudio ayah s).selectedAyah = some ayah ∧
    audioUrl ayah.number
      = "https://cdn.islamic.network/quran/audio/128/ar.alafasy/"
          ++ toString ayah.number ++ ".mp3" ∧
    (∀ k : Nat,
      (playAudio { ayah with numberInSurah := k } s).sound = (playAudio ayah s).sound) := by
  refine ⟨rfl, rfl, rfl, fun k => rfl⟩

theorem findIdxOpt_none (p : Ayah → Bool) (l : List Ayah)
    (h : ∀ b ∈ l, p b = false) : findIdxOpt p l = none := by
  induction l with
  | nil => rfl
  | cons a rest ih =>
      simp only [findIdxOpt, h a (List.mem_cons_self a rest), if_false]
      rw [ih (fun b hb => h b (List.mem_cons_of_mem a hb))]
      rfl

theorem findIdxOpt_first_match (l : List Ayah)
    (hnd : (l.map Ayah.number).Nodup) (i : Nat) (hi : i < l.length) :
    findIdxOpt (fun b => b.number == (l.get ⟨i, hi⟩).number) l = some i := by
  induction l generalizing i with
  | nil => simp at hi
  | cons a rest ih =>
      rw [List.map_cons, List.nodup_cons] at hnd
      obtain ⟨hna, hndr⟩ := hnd
      cases i with
      | zero => simp [findIdxOpt]
      | succ j =>
          have hj : j < rest.length := by simpa using hi
          have hget : (a :: rest).get ⟨j + 1, hi⟩ = rest.get ⟨j, hj⟩ := rfl
          rw [hget]
          have hmem : rest.get ⟨j, hj⟩ ∈ rest := rest.get_mem j hj
          have hanum : a.number ≠ (rest.get ⟨j, hj⟩).number := by
            intro he
            exact hna (he ▸ List.mem_map_of_mem Ayah.number hmem)
          simp only [findIdxOpt, hanum, if_false, beq_iff_eq, ih hndr j hj,
            Option.map_some']

/-- Claim C1: auto-advance within a chapter.  With chapter `surah` loaded
(its verses carrying distinct global numbers and ordered by
`numberInSurah`) and the cursor on verse `i`, firing the finished signal
for that verse: when a verse `i + 1` exists the sequencer performs exactly
`playAudio` of it — the cursor moves there and a fresh handle for its
audio is acquired; when verse `i` is the last one the state is completely
unchanged — the cursor stays, no handle is created, and the loaded chapter
stays the same. -/
theorem auto_advance_within_chapter (s : AppState) (surah : SurahData) (i : Nat)
    (hsel : s.selectedSurah = some surah)
    (hnd : (surah.ayahs.map Ayah.number).Nodup)
    (_hord : surah.ayahs.Pairwise (fun x y => x.numberInSurah < y.numberInSurah))
    (hi : i < surah.ayahs.length)
    (hcur : s.selectedAyah = some (surah.ayahs.get ⟨i, hi⟩)) :
    (∀ hlt : i + 1 < surah.ayahs.length,
      onPlaybackFinished (surah.ayahs.get ⟨i, hi⟩) s
        = playAudio (surah.ayahs.get ⟨i + 1, hlt⟩) s ∧
      (onPlaybackFinished (surah.ayahs.get ⟨i, hi⟩) s).selectedAyah
        = some (surah.ayahs.get ⟨i + 1, hlt⟩) ∧
      (onPlaybackFinished (surah.ayahs.get ⟨i, hi⟩) s).sound
        = some { id := s.nextHandleId
                 uri := audioUrl (surah.ayahs.get ⟨i + 1, hlt⟩).number }) ∧
    (i + 1 = surah.ayahs.length →
      onPlaybackFinished (surah.ayahs.get ⟨i, hi⟩) s = s ∧
      (onPlaybackFinished (surah.ayahs.get ⟨i, hi⟩) s).selectedAyah
        = some (surah.ayahs.get ⟨i, hi⟩) ∧
      (onPlaybackFinished (surah.ayahs.get ⟨i, hi⟩) s).sound = s.sound ∧
      (onPlaybackFinished (surah.ayahs.get ⟨i, hi⟩) s).selectedSurah = some surah) := by
  have hfind : findIndexJS
      (fun b => b.number == (surah.ayahs.get ⟨i, hi⟩).number) surah.ayahs
      = (i : Int) := by
    rw [findIndexJS, findIdxOpt_first_match surah.ayahs hnd i hi]
  constructor
  · intro hlt
    have hg : getJS surah.ayahs ((i : Int) + 1)
        = some (surah.ayahs.get ⟨i + 1, hlt⟩) := by
      unfold getJS
      rw [if_pos (by omega)]
      have ht : ((i : Int) + 1).toNat = i + 1 := by omega
      rw [ht]
      exact List.get?_eq_get hlt
    have hstep : onPlaybackFinished (surah.ayahs.get ⟨i, hi⟩) s
        = playAudio (surah.ayahs.get ⟨i + 1, hlt⟩) s := by
      simp only [onPlaybackFinished, hsel, hfind, hg]
    exact ⟨hstep, by rw [hstep]; rfl, by rw [hstep]; rfl⟩
  · intro hlen
    have hg : getJS surah.ayahs ((i : Int) + 1) = none := by
      unfold getJS
      rw [if_pos (by omega)]
      have ht : ((i : Int) + 1).toNat = i + 1 := by omega
      rw [ht]
      exact List.get?_eq_none.mpr (by omega)
    have hstep : onPlaybackFinished (surah.ayahs.get ⟨i, hi⟩) s = s := by
      simp only [onPlaybackFinished, hsel, hfind, hg]
    exact ⟨hstep, by rw [hstep, hcur], by rw [hstep], by rw [hstep, hsel]⟩

/-- First verse of the two-verse demo chapter. -/
def demoVerse1 : Ayah := { number := 6222, text := "first", numberInSurah := 1 }

/-- Second verse of the two-verse demo chapter. -/
def demoVerse2 : Ayah := { number := 6223, text := "second", numberInSurah := 2 }

/-- A two-verse chapter used to exercise both auto-advance cases. -/
def demoChapterTwoVerses : SurahData :=
  { number := 113
    name := "Al-Falaq"
    englishName := "The Daybreak"
    englishNameTranslation := "The Daybreak"
    numberOfAyahs := 2
    revelationType := "Meccan"
    ayahs := [demoVerse1, demoVerse2] }

/-- State with the two-verse chapter loaded and verse 1 as the cursor. -/
def playingFirstVerse : AppState :=
  { initialState with
    selectedSurah := some demoChapterTwoVerses
    selectedAyah := some demoVerse1
    sound := some { id := 0, uri := audioUrl demoVerse1.number }
    nextHandleId := 1
    events := [AudioEvent.create 0] }

/-- State with the two-verse chapter loaded and the last verse as cursor. -/
def playingLastVerse : AppState :=
  { initialState with
    selectedSurah := some demoChapterTwoVerses
    selectedAyah := some demoVerse2
    sound := some { id := 0, uri := audioUrl demoVerse2.number }
    nextHandleId := 1
    events := [AudioEvent.create 0] }

/-- Witness for C1: finishing the first verse of the demo chapter plays
the second; finishing the last verse changes nothing. -/
theorem auto_advance_within_chapter_witness :
    onPlaybackFinished demoVerse1 playingFirstVerse
      = playAudio demoVerse2 playingFirstVerse ∧
    onPlaybackFinished demoVerse2 playingLastVerse = playingLastVerse := by
  have hfirst := auto_advance_within_chapter playingFirstVerse demoChapterTwoVerses 0
    rfl (by decide) (by decide) (by decide) rfl
  have hlast := auto_advance_within_chapter playingLastVerse demoChapterTwoVerses 1
    rfl (by decide) (by decide) (by decide) rfl
  exact ⟨(hfirst.1 (by decide)).1, (hlast.2 rfl).1⟩

/-- Claim C10: finished signal for a verse outside the loaded chapter.
If the finished verse's global number occurs nowhere in the loaded
chapter's (nonempty) verse list, `findIndex` yields `-1`, the sequencer
reads index `0`, and playback restarts at the chapter's first verse via
`playAudio` — it does not stop. -/
theorem stale_finish_restarts_chapter (s : AppState) (surah : SurahData) (a : Ayah)
    (hsel : s.selectedSurah = some surah)
    (hne : surah.ayahs ≠ [])
    (hout : ∀ b ∈ surah.ayahs, b.number ≠ a.number) :
    onPlaybackFinished a s = playAudio (surah.ayahs.head hne) s ∧
    (onPlaybackFinished a s).selectedAyah = some (surah.ayahs.head hne) ∧
    (onPlaybackFinished a s).sound
      = some { id := s.nextHandleId, uri := audioUrl (surah.ayahs.head hne).number } := by
  have hf : findIndexJS (fun b => b.number == a.number) surah.ayahs = -1 := by
    rw [findIndexJS, findIdxOpt_none]
    intro b hb
    simp [hout b hb]
  have hg : getJS surah.ayahs (-1 + 1) = some (surah.ayahs.head hne) := by
    unfold getJS
    rw [if_pos (by omega)]
    have ht : ((-1 : Int) + 1).toNat = 0 := by omega
    rw [ht, List.get?_zero, List.head?_eq_head hne]
  have hstep : onPlaybackFinished a s = playAudio (surah.ayahs.head hne) s := by
    simp only [onPlaybackFinished, hsel, hf, hg]
  exact ⟨hstep, by rw [hstep]; rfl, by rw [hstep]; rfl⟩

/-- A verse of some other chapter, absent from the demo chapter. -/
def foreignVerse : Ayah := { number := 1, text := "foreign", numberInSurah := 1 }

/-- Witness for C10: after switching to the two-verse demo chapter while
`foreignVerse` was still playing, its finished signal restarts playback at
the demo chapter's first verse. -/
theorem stale_finish_restarts_chapter_witness :
    onPlaybackFinished foreignVerse playingFirstVerse
      = playAudio demoVerse1 playingFirstVerse ∧
    (onPlaybackFinished foreignVerse playingFirstVerse).selectedAyah
      = some demoVerse1 := by
  have h := stale_finish_restarts_chapter playingFirstVerse demoChapterTwoVerses
    foreignVerse rfl (by decide) (by decide)
  exact ⟨h.1, h.2.1⟩

/-- One audio call's effect on the set of live (created, not yet unloaded)
handles. -/
def liveStep (acc : List Nat) (e : AudioEvent) : List Nat :=
  match e with
  | AudioEvent.create i => acc ++ [i]
  | AudioEvent.unload i => acc.erase i
  | AudioEvent.stop _ => acc

/-- The live handles after a trace of audio calls. -/
def liveAfter (l : List AudioEvent) : List Nat := l.foldl liveStep []

/-- The handle ids held in the `sound` slot. -/
def soundIds : Option SoundHandle → List Nat
  | some h => [h.id]
  | none => []

/-- Resource discipline: after every prefix of the audio trace — that is,
at every observable instant — at most one handle is live, and the handles
live now are exactly the ones held in the `sound` slot. -/
def HandleInv (s : AppState) : Prop :=
  (∀ p, p <+: s.events → (liveAfter p).length ≤ 1) ∧
  liveAfter s.events = soundIds s.sound

theorem liveAfter_snoc (l : List AudioEvent) (e : AudioEvent) :
    liveAfter (l ++ [e]) = liveStep (liveAfter l) e := by
  simp [liveAfter, List.foldl_append]

theorem prefix_snoc_cases {α : Type} {p l : List α} {x : α}
    (h : p <+: l ++ [x]) : p <+: l ∨ p = l ++ [x] := by
  rcases Nat.lt_or_ge p.length (l.length + 1) with hlt | hge
  · left
    exact List.prefix_of_prefix_length_le h (List.prefix_append l [x]) (by omega)
  · right
    apply h.eq_of_length
    have h1 := h.length_le
    simp at h1 ⊢
    omega

/-- Trace shape of `playAudio`: release calls for the old handle, then one
creation. -/
theorem playAudio_events (a : Ayah) (s : AppState) :
    (playAudio a s).events
      = (s.events ++ releaseEvents s.sound) ++ [AudioEvent.create s.nextHandleId] ∧
    (playAudio a s).sound
      = some { id := s.nextHandleId, uri := audioUrl a.number } ∧
    (playAudio a s).nextHandleId = s.nextHandleId + 1 := by
  exact ⟨rfl, rfl, rfl⟩

theorem handleInv_playAudio (a : Ayah) (s : AppState) (h : HandleInv s) :
    HandleInv (playAudio a s) := by
  obtain ⟨hpre, hmatch⟩ := h
  cases hs : s.sound with
  | none =>
      have hev : (playAudio a s).events
          = s.events ++ [AudioEvent.create s.nextHandleId] := by
        rw [(playAudio_events a s).1, hs]
        simp [releaseEvents]
      have hlive0 : liveAfter s.events = [] := by
        rw [hmatch, hs]; rfl
      constructor
      · intro p hp
        rw [hev] at hp
        rcases prefix_snoc_cases hp with hp' | hp'
        · exact hpre p hp'
        · rw [hp', liveAfter_snoc, hlive0]
          simp [liveStep]
      · rw [hev, liveAfter_snoc, hlive0, (playAudio_events a s).2.1]
        simp [liveStep, soundIds]
  | some hd =>
      have hev : (playAudio a s).events
          = ((s.events ++ [AudioEvent.stop hd.id]) ++ [AudioEvent.unload hd.id])
              ++ [AudioEvent.create s.nextHandleId] := by
        rw [(playAudio_events a s).1, hs]
        simp [releaseEvents]
      have hlive0 : liveAfter s.events = [hd.id] := by
        rw [hmatch, hs]; rfl
      have hlive1 : liveAfter (s.events ++ [AudioEvent.stop hd.id]) = [hd.id] := by
        rw [liveAfter_snoc, hlive0]; rfl
      have hlive2 : liveAfter
          ((s.events ++ [AudioEvent.stop hd.id]) ++ [AudioEvent.unload hd.id]) = [] := by
        rw [liveAfter_snoc, hlive1]
        simp [liveStep]
      constructor
      · intro p hp
        rw [hev] at hp
        rcases prefix_snoc_cases hp with hp' | hp'
        · rcases prefix_snoc_cases hp' with hp'' | hp''
          · rcases prefix_snoc_cases hp'' with hp3 | hp3
            · exact hpre p hp3
            · rw [hp3, hlive1]
              exact Nat.le_refl 1
          · rw [hp'', hlive2]
            exact Nat.zero_le 1
        · rw [hp', liveAfter_snoc, hlive2]
          simp [liveStep]
      · rw [hev, liveAfter_snoc, hlive2, (playAudio_events a s).2.1]
        simp [liveStep, soundIds]

theorem handleInv_handleBackPress (s : AppState) (h : HandleInv s) :
    HandleInv (handleBackPress s) := by
  obtain ⟨hpre, hmatch⟩ := h
  cases hs : s.sound with
  | none =>
      have hev : (handleBackPress s).events = s.events := by
        simp [handleBackPress, hs]
      have hsd : (handleBackPress s).sound = none := by
        simp [handleBackPress, hs]
      constructor
      · intro p hp
        rw [hev] at hp
        exact hpre p hp
      · rw [hev, hsd, hmatch, hs]
  | some hd =>
      have hev : (handleBackPress s).events
          = (s.events ++ [AudioEvent.stop hd.id]) ++ [AudioEvent.unload hd.id] := by
        simp [handleBackPress, hs]
      have hsd : (handleBackPress s).sound = none := by
        simp [handleBackPress, hs]
      have hlive0 : liveAfter s.events = [hd.id] := by
        rw [hmatch, hs]; rfl
      have hlive1 : liveAfter (s.events ++ [AudioEvent.stop hd.id]) = [hd.id] := by
        rw [liveAfter_snoc, hlive0]; rfl
      have hlive2 : liveAfter (handleBackPress s).events = [] := by
        rw [hev, liveAfter_snoc, hlive1]
        simp [liveStep]
      constructor
      · intro p hp
        rw [hev] at hp
        rcases prefix_snoc_cases hp with hp' | hp'
        · rcases prefix_snoc_cases hp' with hp'' | hp''
          · exact hpre p hp''
          · rw [hp'', hlive1]
            exact Nat.le_refl 1
        · rw [hp', ← hev, hlive2]
          exact Nat.zero_le 1
      · rw [hlive2, hsd]
        rfl

/-- `HandleInv` only looks at the trace and the handle slot. -/
theorem handleInv_congr (s t : AppState) (he : t.events = s.events)
    (hsd : t.sound = s.sound) (h : HandleInv s) : HandleInv t := by
  rw [HandleInv, he, hsd]
  exact h

theorem fetchSurahs_events_sound (r : FetchOutcome (List Surah)) (s : AppState) :
    (fetchSurahs r s).events = s.events ∧ (fetchSurahs r s).sound = s.sound := by
  constructor <;>
  · cases r with
    | ok code data =>
        by_cases hc : code == 200 <;>
          simp [fetchSurahs, fetchSurahsRest, setLoadingTrue, hc]
    | error => simp [fetchSurahs, fetchSurahsRest, setLoadingTrue]

theorem fetchAyahs_events_sound (n : Nat) (r : FetchOutcome SurahData) (s : AppState) :
    (fetchAyahs n r s).events = s.events ∧ (fetchAyahs n r s).sound = s.sound := by
  constructor <;>
  · cases r with
    | ok code data =>
        by_cases hc : code == 200 <;>
          simp [fetchAyahs, fetchAyahsRest, setLoadingTrue, hc]
    | error => simp [fetchAyahs, fetchAyahsRest, setLoadingTrue]

theorem handleInv_onPlaybackFinished (a : Ayah) (s : AppState) (h : HandleInv s) :
    HandleInv (onPlaybackFinished a s) := by
  unfold onPlaybackFinished
  cases s.selectedSurah with
  | none => exact h
  | some surah =>
      simp only
      cases getJS surah.ayahs
          (findIndexJS (fun b => b.number == a.number) surah.ayahs + 1) with
      | some nx => exact handleInv_playAudio nx s h
      | none => exact h

theorem handleInv_fetchNextSurah (r : FetchOutcome SurahData) (s : AppState)
    (h : HandleInv s) : HandleInv (fetchNextSurah r s) := by
  unfold fetchNextSurah
  cases s.selectedSurah with
  | none => exact h
  | some ss =>
      simp only
      by_cases hn : ss.number ≠ 0
      · rw [if_pos hn]
        exact handleInv_congr s _ (fetchAyahs_events_sound _ r s).1
          (fetchAyahs_events_sound _ r s).2 h
      · rw [if_neg hn]
        exact h

theorem handleInv_fetchPreviousSurah (r : FetchOutcome SurahData) (s : AppState)
    (h : HandleInv s) : HandleInv (fetchPreviousSurah r s) := by
  unfold fetchPreviousSurah
  cases s.selectedSurah with
  | none => exact h
  | some ss =>
      simp only
      by_cases hn : ss.number ≠ 0 ∧ ss.number > 1
      · rw [if_pos hn]
        exact handleInv_congr s _ (fetchAyahs_events_sound _ r s).1
          (fetchAyahs_events_sound _ r s).2 h
      · rw [if_neg hn]
        exact h

theorem handleInv_initial : HandleInv initialState := by
  constructor
  · intro p hp
    have : p = ([] : List AudioEvent) := by
      simpa [initialState, List.prefix_nil] using hp
    rw [this]
    exact Nat.zero_le 1
  · rfl

/-- One event-loop step of the provider: a user gesture, a fetch
completion, or the playback-finished callback. -/
inductive Step : AppState → AppState → Prop where
  | toggleList (b : Bool) (s : AppState) : Step s { s with showSurahs := b }
  | listFetch (r : FetchOutcome (List Surah)) (s : AppState) : Step s (fetchSurahs r s)
  | chapterFetch (n : Nat) (r : FetchOutcome SurahData) (s : AppState) :
      Step s (fetchAyahs n r s)
  | play (a : Ayah) (s : AppState) : Step s (playAudio a s)
  | finished (a : Ayah) (s : AppState) : Step s (onPlaybackFinished a s)
  | back (s : AppState) : Step s (handleBackPress s)
  | nextChapter (r : FetchOutcome SurahData) (s : AppState) : Step s (fetchNextSurah r s)
  | prevChapter (r : FetchOutcome SurahData) (s : AppState) :
      Step s (fetchPreviousSurah r s)

/-- States the provider can reach from its initial hook values. -/
inductive Reachable : AppState → Prop where
  | init : Reachable initialState
  | step {s t : AppState} : Reachable s → Step s t → Reachable t

theorem handleInv_reachable (s : AppState) (h : Reachable s) : HandleInv s := by
  induction h with
  | init => exact handleInv_initial
  | step hr hstep ih =>
      rename_i u t
      cases hstep with
      | toggleList b => exact handleInv_congr u _ rfl rfl ih
      | listFetch r =>
          exact handleInv_congr u _ (fetchSurahs_events_sound r u).1
            (fetchSurahs_events_sound r u).2 ih
      | chapterFetch n r =>
          exact handleInv_congr u _ (fetchAyahs_events_sound n r u).1
            (fetchAyahs_events_sound n r u).2 ih
      | play a => exact handleInv_playAudio a u ih
      | finished a => exact handleInv_onPlaybackFinished a u ih
      | back => exact handleInv_handleBackPress u ih
      | nextChapter r => exact handleInv_fetchNextSurah r u ih
      | prevChapter r => exact handleInv_fetchPreviousSurah r u ih

/-- Claim C4: single-handle invariant.  Every reachable state satisfies
`HandleInv` — after every prefix of its audio trace at most one handle is
live, i.e. at every observable instant at most one Playback Handle exists.
Moreover, replacing a playing handle by `playAudio b1` then `playAudio b2`
appends exactly a stop of the first handle, then its unload, then the
creation of the second — stop before unload — leaving exactly that one
handle live. -/
theorem single_handle_invariant (s : AppState) (hs : Reachable s) (b1 b2 : Ayah) :
    HandleInv s ∧
    (playAudio b1 s).sound = some { id := s.nextHandleId, uri := audioUrl b1.number } ∧
    (playAudio b2 (playAudio b1 s)).events
      = (playAudio b1 s).events
          ++ [AudioEvent.stop s.nextHandleId, AudioEvent.unload s.nextHandleId,
              AudioEvent.create (s.nextHandleId + 1)] ∧
    (playAudio b2 (playAudio b1 s)).sound
      = some { id := s.nextHandleId + 1, uri := audioUrl b2.number } ∧
    liveAfter (playAudio b2 (playAudio b1 s)).events = [s.nextHandleId + 1] := by
  have hinv := handleInv_reachable s hs
  have hinv2 := handleInv_playAudio b2 (playAudio b1 s)
    (handleInv_playAudio b1 s hinv)
  refine ⟨hinv, rfl, ?_, rfl, ?_⟩
  · rw [(playAudio_events b2 (playAudio b1 s)).1,
      (playAudio_events b1 s).2.1, (playAudio_events b1 s).2.2]
    simp [releaseEvents]
  · rw [hinv2.2, (playAudio_events b2 (playAudio b1 s)).2.1,
      (playAudio_events b1 s).2.2]
    rfl

/-- Witness for C4: from the initial state, playing the first demo verse
then the second leaves exactly one live handle, the first handle having
been stopped and then unloaded. -/
theorem single_handle_invariant_witness :
    HandleInv initialState ∧
    (playAudio demoVerse1 initialState).sound
      = some { id := initialState.nextHandleId, uri := audioUrl demoVerse1.number } ∧
    (playAudio demoVerse2 (playAudio demoVerse1 initialState)).events
      = (playAudio demoVerse1 initialState).events
          ++ [AudioEvent.stop initialState.nextHandleId,
              AudioEvent.unload initialState.nextHandleId,
              AudioEvent.create (initialState.nextHandleId + 1)] ∧
    (playAudio demoVerse2 (playAudio demoVerse1 initialState)).sound
      = some { id := initialState.nextHandleId + 1, uri := audioUrl demoVerse2.number } ∧
    liveAfter (playAudio demoVerse2 (playAudio demoVerse1 initialState)).events
      = [initialState.nextHandleId + 1] :=
  single_handle_invariant initialState Reachable.init demoVerse1 demoVerse2

end QuranApp
